import Mathlib

/-!
Verification development for the `xsd2proto` schema compiler of the
`ddex-go` repository (`tools/xsd2proto/main.go`).

The Go source is shallowly embedded below: each Go function is translated
into an executable Lean definition of the same name (Go maps become
association lists, Go's `(value, error)` returns become `Except` where the
error path is live, and the emitted `.proto` text is represented
structurally as messages, enums and fields carrying exactly the data the
source writes out: names, types, field numbers, `repeated` markers,
oneof membership and the `@gotags` xml annotation text).
-/

/-! ### Small association-list helpers (Go `map` embeddings) -/

def lookupA {α : Type} : List (String × α) → String → Option α
  | [], _ => none
  | (k, v) :: rest, key => if k = key then some v else lookupA rest key

def insertA {α : Type} : List (String × α) → String → α → List (String × α)
  | [], key, v => [(key, v)]
  | (k, w) :: rest, key, v =>
    if k = key then (k, v) :: rest else (k, w) :: insertA rest key v

/-! ### Character/string helpers mirroring the Go `strings` calls -/

def lowerChars (s : String) : String := String.mk (s.data.map Char.toLower)

def upperChars (s : String) : String := String.mk (s.data.map Char.toUpper)

/-- `startsList needle hay` is `strings.HasPrefix(hay, needle)` on char lists. -/
def startsList : List Char → List Char → Bool
  | [], _ => true
  | _ :: _, [] => false
  | a :: as, b :: bs => a = b && startsList as bs

/-- `containsSub hay needle` is Go's `strings.Contains` on char lists. -/
def containsSub : List Char → List Char → Bool
  | hay, needle =>
    if startsList needle hay then true
    else match hay with
      | [] => false
      | _ :: t => containsSub t needle

/-- Go `strings.Contains` on strings. -/
def strContains (hay needle : String) : Bool := containsSub hay.data needle.data

/-- Splits at the first `:` as in `strings.Index(xsdType, ":")`:
returns `some (before, after)` when a colon occurs, `none` otherwise. -/
def splitColonAux : List Char → Option (List Char × List Char)
  | [] => none
  | c :: cs =>
    if c = ':' then some ([], cs)
    else (splitColonAux cs).map (fun p => (c :: p.1, p.2))

/-- The prefix-stripping step at the top of `xsdTypeToProto`:
result is `(pfx, rest)`; when no colon is present `pfx = ""` and
`rest` is the whole input (and the source leaves `prefix` empty). -/
def splitQName (s : String) : String × String :=
  match splitColonAux s.data with
  | none => ("", s)
  | some (a, b) => (String.mk a, String.mk b)

/-- `strings.ReplaceAll(x, "_", "")`. -/
def removeUnderscores (s : String) : String :=
  String.mk (s.data.filter (fun c => c ≠ '_'))

/-- The `for strings.Contains(x, "__") { x = ReplaceAll(x, "__", "_") }`
loops in the source: collapse every run of underscores to one. -/
def collapseUnderscoreRuns : List Char → List Char
  | [] => []
  | '_' :: '_' :: rest => collapseUnderscoreRuns ('_' :: rest)
  | c :: rest => c :: collapseUnderscoreRuns rest

def collapseUnderscores (s : String) : String :=
  String.mk (collapseUnderscoreRuns s.data)

/-- `strings.Trim(x, "_")`. -/
def trimUnderscores (s : String) : String :=
  String.mk (((s.data.dropWhile (fun c => c = '_')).reverse.dropWhile
    (fun c => c = '_')).reverse)

/-! ### Go name helpers (`toProto*` family, verbatim from the source) -/

/-- `toProtoFieldName`: lower-case every character, inserting `_` before an
upper-case letter that is not in first position. -/
def toProtoFieldNameAux : Bool → List Char → List Char
  | _, [] => []
  | isFirst, c :: cs =>
    (if !isFirst && ('A' ≤ c && c ≤ 'Z') then ['_', c.toLower] else [c.toLower])
      ++ toProtoFieldNameAux false cs

def toProtoFieldName (name : String) : String :=
  String.mk (toProtoFieldNameAux true name.data)

/-- `toProtoMessageName`: upper-case the first character. -/
def toProtoMessageName (name : String) : String :=
  match name.data with
  | [] => ""
  | c :: cs => String.mk (c.toUpper :: cs)

/-- `toProtoEnumName`: upper-case the first character. -/
def toProtoEnumName (name : String) : String :=
  match name.data with
  | [] => ""
  | c :: cs => String.mk (c.toUpper :: cs)

/-- The per-character replacements of `toProtoEnumValue` (after upper-casing):
punctuation to `_`, `+` to `_PLUS_`, `&` to `_AND_`. -/
def enumCharExpand (c : Char) : List Char :=
  if c = '-' ∨ c = ' ' ∨ c = '.' ∨ c = '/' ∨ c = '(' ∨ c = ')' ∨ c = '\'' ∨ c = '"'
    then ['_']
  else if c = '+' then '_' :: 'P' :: 'L' :: 'U' :: 'S' :: ['_']
  else if c = '&' then '_' :: 'A' :: 'N' :: 'D' :: ['_']
  else [c]

def enumValueKeep (c : Char) : Bool :=
  ('A' ≤ c && c ≤ 'Z') || ('0' ≤ c && c ≤ '9') || c = '_'

/-- `toProtoEnumValue`: sanitize one literal enumeration value into an
enum-member token. -/
def toProtoEnumValue (value : String) : String :=
  let expanded := ((upperChars value).data.map enumCharExpand).flatten
  let cleaned := expanded.filter enumValueKeep
  let out := if cleaned.isEmpty then ['U', 'N', 'K', 'N', 'O', 'W', 'N'] else cleaned
  let out := match out with
    | c :: _ => if '0' ≤ c ∧ c ≤ '9' then 'E' :: '_' :: out else out
    | [] => out
  trimUnderscores (String.mk (collapseUnderscoreRuns out))

/-! ### XSD data model (the `XSD*` structs of the source) -/

structure XSDAttribute where
  name : String
  type : String
  use : String
deriving DecidableEq, Repr

structure XSDEnumeration where
  value : String
deriving DecidableEq, Repr

structure XSDRestriction where
  base : String
  enumerations : List XSDEnumeration
deriving DecidableEq, Repr

structure XSDSimpleType where
  name : String
  restriction : Option XSDRestriction
deriving DecidableEq, Repr

structure XSDImportDecl where
  nsAttr : String
  schemaLocation : String
deriving DecidableEq, Repr

structure XSDIncludeDecl where
  schemaLocation : String
deriving DecidableEq, Repr

mutual

inductive XSDElement where
  | mk (name type minOccurs maxOccurs : String)
       (complexType : Option XSDComplexType)

inductive XSDComplexType where
  | mk (name : String)
       (sequence : Option XSDSequence)
       (choice : Option XSDChoice)
       (simpleContent : Option XSDSimpleContent)
       (attributes : List XSDAttribute)

inductive XSDSequence where
  | mk (elements : List XSDElement)

inductive XSDChoice where
  | mk (minOccurs maxOccurs : String) (elements : List XSDElement)

inductive XSDSimpleContent where
  | mk (extension : Option XSDExtension)

inductive XSDExtension where
  | mk (base : String) (attributes : List XSDAttribute)

end

def XSDElement.name : XSDElement → String
  | .mk n _ _ _ _ => n

def XSDElement.type : XSDElement → String
  | .mk _ t _ _ _ => t

def XSDElement.minOccurs : XSDElement → String
  | .mk _ _ mn _ _ => mn

def XSDElement.maxOccurs : XSDElement → String
  | .mk _ _ _ mx _ => mx

def XSDElement.complexType : XSDElement → Option XSDComplexType
  | .mk _ _ _ _ ct => ct

def XSDComplexType.name : XSDComplexType → String
  | .mk n _ _ _ _ => n

def XSDComplexType.sequence : XSDComplexType → Option XSDSequence
  | .mk _ sq _ _ _ => sq

def XSDComplexType.choice : XSDComplexType → Option XSDChoice
  | .mk _ _ ch _ _ => ch

def XSDComplexType.simpleContent : XSDComplexType → Option XSDSimpleContent
  | .mk _ _ _ sc _ => sc

def XSDComplexType.attributes : XSDComplexType → List XSDAttribute
  | .mk _ _ _ _ at_ => at_

def XSDSequence.elements : XSDSequence → List XSDElement
  | .mk es => es

def XSDChoice.minOccurs : XSDChoice → String
  | .mk mn _ _ => mn

def XSDChoice.maxOccurs : XSDChoice → String
  | .mk _ mx _ => mx

def XSDChoice.elements : XSDChoice → List XSDElement
  | .mk _ _ es => es

def XSDSimpleContent.extension : XSDSimpleContent → Option XSDExtension
  | .mk e => e

def XSDExtension.base : XSDExtension → String
  | .mk b _ => b

def XSDExtension.attributes : XSDExtension → List XSDAttribute
  | .mk _ at_ => at_

structure XSDSchema where
  targetNamespace : String
  elements : List XSDElement
  complexTypes : List XSDComplexType
  simpleTypes : List XSDSimpleType
  imports : List XSDImportDecl
  includes : List XSDIncludeDecl

/-! ### `protoPkgInfo` and the type translator `xsdTypeToProto` -/

structure ProtoPkgInfo where
  pkgName : String
  goPackage : String
  filePath : String
deriving DecidableEq, Repr

/-- The `for ns, pkg := range allPkgs` loop in `xsdTypeToProto`'s default
case.  A Go `map` range visits entries in an unspecified order; the
embedding makes that order explicit as the order of the association list,
and returns the first entry whose lower-cased namespace contains `pfx`. -/
def findMatchingPkg (pfx : String) : List (String × ProtoPkgInfo) → Option ProtoPkgInfo
  | [] => none
  | (ns, pkg) :: rest =>
    if strContains (lowerChars ns) pfx then some pkg else findMatchingPkg pfx rest

/-- `xsdTypeToProto` together with the `log.Printf` diagnostics it emits
(second component).  Matches the source switch arm for arm. -/
def xsdTypeToProtoCore (xsdType0 : String) (allPkgs : List (String × ProtoPkgInfo)) :
    String × List String :=
  let sp := splitQName xsdType0
  let pfx := sp.1
  let t := sp.2
  if t = "string" ∨ t = "normalizedString" ∨ t = "token" ∨ t = "anyURI" ∨ t = "NMTOKEN"
    then ("string", [])
  else if t = "int" ∨ t = "integer" ∨ t = "positiveInteger" ∨ t = "PositiveInteger"
    then ("int32", [])
  else if t = "long" then ("int64", [])
  else if t = "boolean" then ("bool", [])
  else if t = "decimal" ∨ t = "float" then ("string", [])
  else if t = "double" then ("double", [])
  else if t = "dateTime" ∨ t = "date" ∨ t = "time" ∨ t = "duration" ∨ t = "gYear" ∨
          t = "GYear" ∨ t = "ddex_IsoDate" ∨ t = "Ddex_IsoDate"
    then ("string", [])
  else if t = "base64Binary" then ("bytes", [])
  else if pfx = "avs" then ("string", [])
  else
    match (if pfx ≠ "" ∧ pfx ≠ "xs" then findMatchingPkg pfx allPkgs else none) with
    | some pkg => (pkg.pkgName ++ "." ++ removeUnderscores (toProtoMessageName t), [])
    | none =>
      (removeUnderscores (toProtoMessageName t),
       [if t ≠ xsdType0 then
          "Unmapped XSD type: " ++ t ++ " (original: " ++ xsdType0 ++
            ") -> treating as custom message"
        else "Unmapped XSD type: " ++ t ++ " -> treating as custom message"])

def xsdTypeToProto (xsdType : String) (allPkgs : List (String × ProtoPkgInfo)) : String :=
  (xsdTypeToProtoCore xsdType allPkgs).1

example : xsdTypeToProto "xs:string" [] = "string" := by decide
example : xsdTypeToProto "avs:CurrentTerritoryCode" [] = "string" := by decide
example : xsdTypeToProto "PartyId" [] = "PartyId" := by decide
example : toProtoEnumValue "FAILED-RETRY" = "FAILED_RETRY" := by decide
example : toProtoFieldName "IsDefault" = "is_default" := by decide

/-! ### Structured representation of the emitted `.proto` declarations

The source emits text; every datum it writes for a field is captured here:
the `@gotags` xml annotation text, the `repeated ` marker, the type
expression, the (deduplicated) field name, the field number, and whether
the field sits inside the `oneof choice { ... }` block. -/

structure ProtoField where
  xmlTag : String
  repeated : Bool
  type : String
  name : String
  num : Nat
  inChoice : Bool
deriving DecidableEq, Repr

structure ProtoMessage where
  name : String
  hasChoiceGroup : Bool
  fields : List ProtoField
deriving DecidableEq, Repr

structure ProtoEnumMember where
  name : String
  value : Nat
deriving DecidableEq, Repr

structure ProtoEnum where
  name : String
  members : List ProtoEnumMember
deriving DecidableEq, Repr

structure ProtoUnit where
  pkg : String
  goPkg : String
  imports : List String
  messages : List ProtoMessage
  enums : List ProtoEnum
deriving DecidableEq, Repr

/-- `getUniqueFieldName`: the per-message `usedFieldNames map[string]int`
becomes an association list.  First use returns the base name and records
count 0; a repeat bumps the count and appends `_<count>`. -/
def getUniqueFieldName (baseName : String) (used : List (String × Nat)) :
    String × List (String × Nat) :=
  match lookupA used baseName with
  | some count =>
      let count := count + 1
      (baseName ++ "_" ++ toString count, insertA used baseName count)
  | none => (baseName, insertA used baseName 0)

/-- `generateFieldWithDedup` (sequence elements). -/
def generateFieldWithDedup (element : XSDElement) (fieldNum : Nat)
    (allPkgs : List (String × ProtoPkgInfo)) (used : List (String × Nat)) :
    ProtoField × List (String × Nat) :=
  let fn := getUniqueFieldName (toProtoFieldName element.name) used
  let fieldType := if element.type = "" then "string" else xsdTypeToProto element.type allPkgs
  ({ xmlTag := element.name
     repeated := element.maxOccurs = "unbounded"
     type := fieldType
     name := fn.1
     num := fieldNum
     inChoice := false }, fn.2)

/-- `generateChoiceFieldWithDedup` (choice members; never `repeated`). -/
def generateChoiceFieldWithDedup (element : XSDElement) (fieldNum : Nat)
    (allPkgs : List (String × ProtoPkgInfo)) (used : List (String × Nat)) :
    ProtoField × List (String × Nat) :=
  let fn := getUniqueFieldName (toProtoFieldName element.name) used
  let fieldType := if element.type = "" then "string" else xsdTypeToProto element.type allPkgs
  ({ xmlTag := element.name
     repeated := false
     type := fieldType
     name := fn.1
     num := fieldNum
     inChoice := true }, fn.2)

/-- `generateAttributeFieldWithDedup`. -/
def generateAttributeFieldWithDedup (attr : XSDAttribute) (fieldNum : Nat)
    (allPkgs : List (String × ProtoPkgInfo)) (used : List (String × Nat)) :
    ProtoField × List (String × Nat) :=
  let fn := getUniqueFieldName (toProtoFieldName attr.name) used
  let fieldType := if attr.type = "" then "string" else xsdTypeToProto attr.type allPkgs
  ({ xmlTag := attr.name ++ ",attr"
     repeated := false
     type := fieldType
     name := fn.1
     num := fieldNum
     inChoice := false }, fn.2)

/-- The `log.Printf` diagnostics produced while generating one
element-backed field: the translator is consulted only when a type
reference is present (`element.Type != ""`). -/
def elementFieldLogs (element : XSDElement) (allPkgs : List (String × ProtoPkgInfo)) :
    List String :=
  if element.type = "" then [] else (xsdTypeToProtoCore element.type allPkgs).2

def attributeFieldLogs (attr : XSDAttribute) (allPkgs : List (String × ProtoPkgInfo)) :
    List String :=
  if attr.type = "" then [] else (xsdTypeToProtoCore attr.type allPkgs).2

/-- The `for _, element := range complexType.Sequence.Elements` loop. -/
def genSeqFields (allPkgs : List (String × ProtoPkgInfo)) :
    List XSDElement → Nat → List (String × Nat) →
    List ProtoField × Nat × List (String × Nat)
  | [], n, u => ([], n, u)
  | e :: es, n, u =>
    let r := generateFieldWithDedup e n allPkgs u
    let rest := genSeqFields allPkgs es (n + 1) r.2
    (r.1 :: rest.1, rest.2)

/-- The `for _, element := range complexType.Choice.Elements` loop. -/
def genChoiceFields (allPkgs : List (String × ProtoPkgInfo)) :
    List XSDElement → Nat → List (String × Nat) →
    List ProtoField × Nat × List (String × Nat)
  | [], n, u => ([], n, u)
  | e :: es, n, u =>
    let r := generateChoiceFieldWithDedup e n allPkgs u
    let rest := genChoiceFields allPkgs es (n + 1) r.2
    (r.1 :: rest.1, rest.2)

/-- The attribute loops (simple-content extension attributes and
complex-type-level attributes both call `generateAttributeFieldWithDedup`). -/
def genAttrFields (allPkgs : List (String × ProtoPkgInfo)) :
    List XSDAttribute → Nat → List (String × Nat) →
    List ProtoField × Nat × List (String × Nat)
  | [], n, u => ([], n, u)
  | a :: as, n, u =>
    let r := generateAttributeFieldWithDedup a n allPkgs u
    let rest := genAttrFields allPkgs as (n + 1) r.2
    (r.1 :: rest.1, rest.2)

/-- The `if complexType.Sequence != nil` block of
`generateComplexTypeMessage`. -/
def seqStage (allPkgs : List (String × ProtoPkgInfo)) (sq : Option XSDSequence)
    (n : Nat) (u : List (String × Nat)) :
    List ProtoField × Nat × List (String × Nat) :=
  match sq with
  | some s => genSeqFields allPkgs s.elements n u
  | none => ([], n, u)

/-- The `if complexType.Choice != nil && len(...) > 0` block (the oneof). -/
def choiceStage (allPkgs : List (String × ProtoPkgInfo)) (ch : Option XSDChoice)
    (n : Nat) (u : List (String × Nat)) :
    List ProtoField × Nat × List (String × Nat) :=
  match ch with
  | some c =>
    if c.elements.isEmpty then ([], n, u)
    else genChoiceFields allPkgs c.elements n u
  | none => ([], n, u)

/-- The `if complexType.SimpleContent != nil && ... .Extension != nil`
block: the synthetic chardata `value` field, then the extension
attributes. -/
def simpleContentStage (allPkgs : List (String × ProtoPkgInfo))
    (sc : Option XSDSimpleContent) (n : Nat) (u : List (String × Nat)) :
    List ProtoField × Nat × List (String × Nat) :=
  match sc with
  | some scont => match scont.extension with
    | some ext =>
      let vn := getUniqueFieldName "value" u
      let valueField : ProtoField :=
        { xmlTag := ",chardata", repeated := false, type := "string",
          name := vn.1, num := n, inChoice := false }
      let attrs := genAttrFields allPkgs ext.attributes (n + 1) vn.2
      (valueField :: attrs.1, attrs.2)
    | none => ([], n, u)
  | none => ([], n, u)

/-- `generateComplexTypeMessage`: one message per complex type, with the
field counter starting at 1 and threading through sequence fields, choice
members, the synthetic simple-content `value` field, extension attributes,
then complex-type-level attributes, in that order. -/
def generateComplexTypeMessage (name : String) (complexType : XSDComplexType)
    (allPkgs : List (String × ProtoPkgInfo)) : ProtoMessage :=
  let seq := seqStage allPkgs complexType.sequence 1 []
  let cho := choiceStage allPkgs complexType.choice seq.2.1 seq.2.2
  let sc := simpleContentStage allPkgs complexType.simpleContent cho.2.1 cho.2.2
  let ats := genAttrFields allPkgs complexType.attributes sc.2.1 sc.2.2
  { name := toProtoMessageName name
    hasChoiceGroup := (match complexType.choice with
      | some ch => !ch.elements.isEmpty
      | none => false)
    fields := seq.1 ++ cho.1 ++ sc.1 ++ ats.1 }

/-- The member-emitting loop of `generateEnum`: `seenValues` dedup set and
`valueIndex` counter starting at 1; a repeated sanitized name is skipped. -/
def genEnumMembers (pfx : String) :
    List XSDEnumeration → List String → Nat → List ProtoEnumMember
  | [], _, _ => []
  | e :: rest, seen, idx =>
    let v := pfx ++ "_" ++ toProtoEnumValue e.value
    if v ∈ seen then genEnumMembers pfx rest seen idx
    else { name := v, value := idx } :: genEnumMembers pfx rest (v :: seen) (idx + 1)

/-- `generateEnum`: enum named after the simple type (underscores removed),
a zero-valued `<PREFIX>_UNSPECIFIED` sentinel first, then the deduplicated
literal members numbered from 1.  (The source is only invoked on simple
types whose restriction carries at least one enumeration; on a missing
restriction this embedding emits just the sentinel.) -/
def generateEnum (simpleType : XSDSimpleType) : ProtoEnum :=
  let enumName := removeUnderscores (toProtoMessageName simpleType.name)
  let pfx := collapseUnderscores (upperChars (toProtoFieldName simpleType.name))
  let enums := match simpleType.restriction with
    | some r => r.enumerations
    | none => []
  { name := enumName
    members := { name := pfx ++ "_UNSPECIFIED", value := 0 } ::
      genEnumMembers pfx enums [] 1 }

/-! ### Namespace bundles and `generateProtoForBundle` -/

structure NamespaceBundle where
  targetNamespace : String
  elements : List XSDElement
  complexTypes : List XSDComplexType
  simpleTypes : List XSDSimpleType
  /-- `Imports map[string]struct{}` as a duplicate-free insertion list. -/
  imports : List String

def avsNamespace1 : String := "http://ddex.net/xml/avs/avs"

def avsNamespace2 : String := "http://ddex.net/xml/allowed-value-sets"

/-- The dependency computation of `generateProtoForBundle`: for each
imported namespace other than the bundle's own, an AVS namespace expands
to the versioned path from the AVS version context, every other namespace
resolves through the unit map (skipped when absent); the list is sorted
(`sort.Strings(deps)`). -/
def bundleDeps (b : NamespaceBundle) (all : List (String × ProtoPkgInfo))
    (avsVersionContext : List (String × String)) : List String :=
  let collected := b.imports.foldr
    (fun ns acc =>
      if ns = b.targetNamespace then acc
      else if ns = avsNamespace1 ∨ ns = avsNamespace2 then
        let avsVersion := (lookupA avsVersionContext b.targetNamespace).getD ""
        let avsVersion := if avsVersion = "" then "latest" else avsVersion
        ("ddex/avs/v" ++ avsVersion ++ "/v" ++ avsVersion ++ ".proto") :: acc
      else match lookupA all ns with
        | some info => info.filePath :: acc
        | none => acc)
    []
  collected.mergeSort (fun a b => a ≤ b)

/-- Loop 1 of `generateProtoForBundle`: top-level elements carrying an
inline complex type become messages, deduplicated by generated name. -/
def genElemMessages (allPkgs : List (String × ProtoPkgInfo)) :
    List XSDElement → List String → List ProtoMessage × List String
  | [], generated => ([], generated)
  | el :: rest, generated =>
    match el.complexType with
    | some ct =>
      let nm := toProtoMessageName el.name
      if nm ∈ generated then genElemMessages allPkgs rest generated
      else
        let msg := generateComplexTypeMessage el.name ct allPkgs
        let r := genElemMessages allPkgs rest (generated ++ [nm])
        (msg :: r.1, r.2)
    | none => genElemMessages allPkgs rest generated

/-- Loop 2: named complex types become messages, deduplicated by name. -/
def genCTMessages (allPkgs : List (String × ProtoPkgInfo)) :
    List XSDComplexType → List String → List ProtoMessage × List String
  | [], generated => ([], generated)
  | ct :: rest, generated =>
    if ct.name = "" then genCTMessages allPkgs rest generated
    else
      let nm := toProtoMessageName ct.name
      if nm ∈ generated then genCTMessages allPkgs rest generated
      else
        let msg := generateComplexTypeMessage ct.name ct allPkgs
        let r := genCTMessages allPkgs rest (generated ++ [nm])
        (msg :: r.1, r.2)

/-- Loop 3: enumeration-restricted simple types become enums, in the same
generated-name space as the messages. -/
def genEnumDecls :
    List XSDSimpleType → List String → List ProtoEnum × List String
  | [], generated => ([], generated)
  | st :: rest, generated =>
    let eligible : Bool := st.name ≠ "" && (match st.restriction with
      | some r => !r.enumerations.isEmpty
      | none => false)
    if eligible then
      let en := toProtoEnumName st.name
      if en ∈ generated then genEnumDecls rest generated
      else
        let r := genEnumDecls rest (generated ++ [en])
        (generateEnum st :: r.1, r.2)
    else genEnumDecls rest generated

/-- `generateProtoForBundle`: header data, sorted imports, then the three
declaration loops sharing one generated-name registry. -/
def generateProtoForBundle (b : NamespaceBundle) (packageName goPackage : String)
    (all : List (String × ProtoPkgInfo)) (avsVersionContext : List (String × String)) :
    ProtoUnit :=
  let em := genElemMessages all b.elements []
  let cm := genCTMessages all b.complexTypes em.2
  let en := genEnumDecls b.simpleTypes cm.2
  { pkg := packageName
    goPkg := goPackage
    imports := bundleDeps b all avsVersionContext
    messages := em.1 ++ cm.1
    enums := en.1 }

def statusSimpleType : XSDSimpleType :=
  { name := "Status",
    restriction := some { base := "xs:string",
                          enumerations := [{ value := "OK" }, { value := "FAILED-RETRY" }] } }

example :
    generateEnum statusSimpleType =
    { name := "Status",
      members := [{ name := "STATUS_UNSPECIFIED", value := 0 },
                  { name := "STATUS_OK", value := 1 },
                  { name := "STATUS_FAILED_RETRY", value := 2 }] } := by decide

def tagComplexType : XSDComplexType :=
  .mk "Tag" none none
    (some (.mk (some (.mk "xs:string"
      [{ name := "IsDefault", type := "xs:boolean", use := "required" }]))))
    []

example :
    generateComplexTypeMessage "Tag" tagComplexType [] =
    { name := "Tag", hasChoiceGroup := false,
      fields := [
        { xmlTag := ",chardata", repeated := false, type := "string",
          name := "value", num := 1, inChoice := false },
        { xmlTag := "IsDefault,attr", repeated := false, type := "bool",
          name := "is_default", num := 2, inChoice := false }] } := by decide

/-! ### Schema graph loader (`loadSchemaGraph`, `detectAVSVersion`)

Paths are plain strings; the filesystem is an association list from
(already canonical) absolute path to parsed schema.  `filepath.Dir` and
`filepath.Join` are modelled lexically on `/`-separated paths (without
Go's path cleaning, which the claims do not depend on). -/

def digitChar (c : Char) : Bool := '0' ≤ c && c ≤ '9'

/-- The characters after the first occurrence of `marker`, or `none`
(the marker is assumed non-empty, as in the source's `"avs_"`). -/
def afterFirstMarker (marker : List Char) : List Char → Option (List Char)
  | [] => none
  | c :: t =>
    if startsList marker (c :: t) then some ((c :: t).drop marker.length)
    else afterFirstMarker marker t

/-- The characters before the first occurrence of `marker` (all of them
when the marker does not occur). -/
def upToMarker (marker : List Char) : List Char → List Char
  | [] => []
  | c :: t =>
    if startsList marker (c :: t) then [] else c :: upToMarker marker t

/-- `detectAVSVersion`: extract the 8-digit date token from an AVS schema
location shaped like `avs_YYYYMMDD.xsd`; empty string means latest. -/
def detectAVSVersion (schemaLocation : String) : String :=
  match afterFirstMarker ['a', 'v', 's', '_'] schemaLocation.data with
  | none => ""
  | some rest =>
    let part1 := upToMarker ['a', 'v', 's', '_'] rest
    let datePart := part1.takeWhile (fun c => c ≠ '.')
    if datePart.length = 8 then
      (if datePart.all digitChar then String.mk datePart else "")
    else ""

example : detectAVSVersion "../avs/avs_20200108.xsd" = "20200108" := by decide
example : detectAVSVersion "avs.xsd" = "" := by decide
example : detectAVSVersion "avs_2020.xsd" = "" := by decide

/-- `filepath.Dir`, lexically: everything before the last `/`
(`"."` when there is no slash). -/
def dirOf (p : String) : String :=
  match (p.data.reverse.dropWhile (fun c => c ≠ '/')) with
  | [] => "."
  | _ :: t => String.mk t.reverse

/-- `filepath.Join(a, b)` without cleaning. -/
def joinPath (a b : String) : String := a ++ "/" ++ b

example : dirOf "/x/a.xsd" = "/x" := by decide

/-- Set-insert for the `Imports map[string]struct{}` embedding. -/
def setInsert (l : List String) (x : String) : List String :=
  if x ∈ l then l else l ++ [x]

/-- The mutable maps of `loadState` that `loadSchemaGraph` fills per
document: `fileToNS`, the namespace bundles, and the AVS version context. -/
structure Registry where
  fileToNS : List (String × String)
  bundles : List (String × NamespaceBundle)
  avsVersionContext : List (String × String)

def emptyRegistry : Registry :=
  { fileToNS := [], bundles := [], avsVersionContext := [] }

def emptyBundle (ns : String) : NamespaceBundle :=
  { targetNamespace := ns, elements := [], complexTypes := [],
    simpleTypes := [], imports := [] }

/-- One document's registration (`loadSchemaGraph` lines between the
namespace check and the include/import recursion): get-or-create the
bundle, append the document's declarations, record non-self imports in the
dependency set, and set the AVS version context when an AVS namespace is
imported. -/
def registerDoc (reg : Registry) (path : String) (schema : XSDSchema) : Registry :=
  let ns := schema.targetNamespace
  let b0 := (lookupA reg.bundles ns).getD (emptyBundle ns)
  let b1 := { b0 with
    elements := b0.elements ++ schema.elements
    complexTypes := b0.complexTypes ++ schema.complexTypes
    simpleTypes := b0.simpleTypes ++ schema.simpleTypes }
  let step := schema.imports.foldl
    (fun (acc : NamespaceBundle × List (String × String)) imp =>
      if imp.nsAttr ≠ "" ∧ imp.nsAttr ≠ ns then
        ({ acc.1 with imports := setInsert acc.1.imports imp.nsAttr },
         if imp.nsAttr = avsNamespace1 ∨ imp.nsAttr = avsNamespace2 then
           insertA acc.2 ns (detectAVSVersion imp.schemaLocation)
         else acc.2)
      else acc)
    (b1, reg.avsVersionContext)
  { fileToNS := insertA reg.fileToNS path ns
    bundles := insertA reg.bundles ns step.1
    avsVersionContext := step.2 }

/-- The include/import locations a loaded document recurses into, in
source order: includes first, then located imports, with the two AVS
namespaces skipped (they are handled as separate specs). -/
def childPaths (abs : String) (schema : XSDSchema) : List String :=
  let baseDir := dirOf abs
  (schema.includes.filter (fun i => i.schemaLocation ≠ "")).map
      (fun i => joinPath baseDir i.schemaLocation)
    ++ (schema.imports.filter (fun i =>
          i.schemaLocation ≠ "" ∧ i.nsAttr ≠ avsNamespace1 ∧ i.nsAttr ≠ avsNamespace2)).map
      (fun i => joinPath baseDir i.schemaLocation)

structure LoadState where
  visited : List String
  /-- The absolute paths actually read and parsed, in order (the model's
  observation of `os.ReadFile` calls). -/
  trace : List String
  reg : Registry

def initialLoadState : LoadState := { visited := [], trace := [], reg := emptyRegistry }

/-- The number of filesystem paths not yet visited - the loader's
termination measure. -/
def unvisitedCount (fs : List (String × XSDSchema)) (visited : List String) : Nat :=
  (fs.map Prod.fst).countP (fun q => decide (q ∉ visited))

theorem countP_notmem_cons_le (l : List String) (p : String) (v : List String) :
    l.countP (fun q => decide (q ∉ p :: v)) ≤ l.countP (fun q => decide (q ∉ v)) := by
  induction l with
  | nil => simp
  | cons a t ih =>
    rw [List.countP_cons, List.countP_cons]
    have himp : (decide (a ∉ p :: v) : Bool) = true → (decide (a ∉ v) : Bool) = true := by
      simp only [decide_eq_true_eq, List.mem_cons, not_or]
      exact fun h => h.2
    cases hA : (decide (a ∉ p :: v) : Bool) <;> cases hB : (decide (a ∉ v) : Bool) <;>
      simp_all <;> omega

theorem countP_notmem_cons_lt (l : List String) (p : String) (v : List String)
    (hp : p ∈ l) (hv : p ∉ v) :
    l.countP (fun q => decide (q ∉ p :: v)) < l.countP (fun q => decide (q ∉ v)) := by
  induction l with
  | nil => cases hp
  | cons a t ih =>
    rw [List.countP_cons, List.countP_cons]
    by_cases hap : a = p
    · subst hap
      have h1 : (decide (a ∉ a :: v) : Bool) = false := by simp
      have h2 : (decide (a ∉ v) : Bool) = true := by simpa using hv
      have hle := countP_notmem_cons_le t a v
      rw [h1, h2]
      simp only [if_true, if_false, Bool.false_eq_true]
      omega
    · have ht : p ∈ t := by
        rcases List.mem_cons.mp hp with h | h
        · exact absurd h.symm hap
        · exact h
      have hlt := ih ht
      have himp : (decide (a ∉ p :: v) : Bool) = true → (decide (a ∉ v) : Bool) = true := by
        simp only [decide_eq_true_eq, List.mem_cons, not_or]
        exact fun h => h.2
      cases hA : (decide (a ∉ p :: v) : Bool) <;> cases hB : (decide (a ∉ v) : Bool) <;>
        simp_all <;> omega

theorem lookupA_mem_keys {α : Type} (fs : List (String × α)) (p : String) (x : α)
    (h : lookupA fs p = some x) : p ∈ fs.map Prod.fst := by
  induction fs with
  | nil => simp [lookupA] at h
  | cons kv rest ih =>
    obtain ⟨k, w⟩ := kv
    by_cases hk : k = p
    · simp [hk]
    · simp only [lookupA, hk, if_false] at h
      simp [ih h]

theorem unvisited_cons_le (fs : List (String × XSDSchema)) (p : String) (v : List String) :
    unvisitedCount fs (p :: v) ≤ unvisitedCount fs v :=
  countP_notmem_cons_le _ p v

theorem unvisited_cons_lt (fs : List (String × XSDSchema)) (p : String) (v : List String)
    (hp : p ∈ fs.map Prod.fst) (hv : p ∉ v) :
    unvisitedCount fs (p :: v) < unvisitedCount fs v :=
  countP_notmem_cons_lt _ p v hp hv

/-- `loadSchemaGraph` fused with the caller loops that feed it: process a
worklist of paths in order.  For each path: skip it when already visited;
otherwise mark it visited, read and parse it (failing as the source does
on a missing file or a missing target namespace), register the document,
recurse into its includes and located imports, then continue with the
remaining worklist.  The result carries the proof that the unvisited-file
count never grows, which is what makes the recursion well-founded even on
cyclic include graphs. -/
def loadGraphList (fs : List (String × XSDSchema)) (st : LoadState) (paths : List String) :
    Except String { st' : LoadState //
      unvisitedCount fs st'.visited ≤ unvisitedCount fs st.visited } :=
  match paths with
  | [] => .ok ⟨st, Nat.le.refl⟩
  | p :: rest =>
    if hv : p ∈ st.visited then
      match loadGraphList fs st rest with
      | .error e => .error e
      | .ok r => .ok r
    else
      match hfs : lookupA fs p with
      | none => .error ("read " ++ p ++ ": cannot read file")
      | some schema =>
        if schema.targetNamespace = "" then
          .error ("schema " ++ p ++ " missing targetNamespace")
        else
          match loadGraphList fs
              { visited := p :: st.visited
                trace := st.trace ++ [p]
                reg := registerDoc st.reg p schema }
              (childPaths p schema) with
          | .error e => .error e
          | .ok ⟨st₃, h₃⟩ =>
            match loadGraphList fs st₃ rest with
            | .error e => .error e
            | .ok ⟨st₄, h₄⟩ =>
              .ok ⟨st₄, by
                have hstep : unvisitedCount fs (p :: st.visited) ≤ unvisitedCount fs st.visited :=
                  unvisited_cons_le fs p st.visited
                have h₃' : unvisitedCount fs st₃.visited ≤ unvisitedCount fs (p :: st.visited) := h₃
                omega⟩
  termination_by (unvisitedCount fs st.visited, paths.length)
  decreasing_by
  · exact Prod.Lex.right _ (Nat.lt_succ_self _)
  · have hmem : p ∈ fs.map Prod.fst := lookupA_mem_keys fs p schema hfs
    have : unvisitedCount fs (p :: st.visited) < unvisitedCount fs st.visited :=
      unvisited_cons_lt fs p st.visited hmem hv
    exact Prod.Lex.left _ _ this
  · have hmem : p ∈ fs.map Prod.fst := lookupA_mem_keys fs p schema hfs
    have hlt : unvisitedCount fs (p :: st.visited) < unvisitedCount fs st.visited :=
      unvisited_cons_lt fs p st.visited hmem hv
    have h₃' : unvisitedCount fs st₃.visited ≤ unvisitedCount fs (p :: st.visited) := h₃
    exact Prod.Lex.left _ _ (by omega)

/-- `loadSchemaGraph` as called by `convertSpec`: load the entry path into
a fresh load state. -/
def loadSchemaGraph (fs : List (String × XSDSchema)) (path : String) :
    Except String LoadState :=
  match loadGraphList fs initialLoadState [path] with
  | .error e => .error e
  | .ok r => .ok r.val

def registryOfTrace (fs : List (String × XSDSchema)) (trace : List String) : Registry :=
  trace.foldl
    (fun r p => match lookupA fs p with
      | some s => registerDoc r p s
      | none => r)
    emptyRegistry

theorem registryOfTrace_append (fs : List (String × XSDSchema)) (t : List String)
    (p : String) (s : XSDSchema) (h : lookupA fs p = some s) :
    registryOfTrace fs (t ++ [p]) = registerDoc (registryOfTrace fs t) p s := by
  simp [registryOfTrace, List.foldl_append, h]

def LoaderInv (fs : List (String × XSDSchema)) (st : LoadState) : Prop :=
  st.trace.Nodup ∧ (∀ q ∈ st.trace, q ∈ st.visited) ∧
    st.reg = registryOfTrace fs st.trace

theorem loadGraphList_inv (fs : List (String × XSDSchema)) :
    ∀ (st : LoadState) (paths : List String)
      (r : { st' : LoadState // unvisitedCount fs st'.visited ≤ unvisitedCount fs st.visited }),
      loadGraphList fs st paths = .ok r → LoaderInv fs st → LoaderInv fs r.val := by
  refine loadGraphList.induct fs
    (fun st paths =>
      ∀ (r : { st' : LoadState // unvisitedCount fs st'.visited ≤ unvisitedCount fs st.visited }),
        loadGraphList fs st paths = .ok r → LoaderInv fs st → LoaderInv fs r.val)
    ?_ ?_ ?_ ?_ ?_ ?_ ?_ ?_
  · intro st r h hinv
    rw [loadGraphList] at h
    cases h
    exact hinv
  · intro st p rest hp e herr ih r h hinv
    rw [loadGraphList] at h
    rw [dif_pos hp, herr] at h
    cases h
  · intro st p rest hp r' hok ih r h hinv
    rw [loadGraphList] at h
    rw [dif_pos hp, hok] at h
    cases h
    exact ih r' hok hinv
  · intro st p rest hp hfs r h hinv
    rw [loadGraphList] at h
    rw [dif_neg hp] at h
    split at h <;> simp_all
  · intro st p rest hp schema hfs hns r h hinv
    rw [loadGraphList] at h
    rw [dif_neg hp] at h
    split at h <;> simp_all
  · intro st p rest hp schema hfs hns e herr ih r h hinv
    rw [loadGraphList] at h
    rw [dif_neg hp] at h
    split at h
    · simp_all
    · rename_i schema' heq
      rw [hfs] at heq
      injection heq with heq'
      subst heq'
      rw [if_neg hns] at h
      rw [herr] at h
      cases h
  · intro st p rest hp schema hfs hns st₄ h₄ hok1 e herr ih1 ih2 r h hinv
    rw [loadGraphList] at h
    rw [dif_neg hp] at h
    split at h
    · simp_all
    · rename_i schema' heq
      rw [hfs] at heq
      injection heq with heq'
      subst heq'
      rw [if_neg hns] at h
      rw [hok1] at h
      simp [herr] at h
  · intro st p rest hp schema hfs hns st₄ h₄ hok1 st₅ h₅ hok2 ih1 ih2 r h hinv
    rw [loadGraphList] at h
    rw [dif_neg hp] at h
    split at h
    · simp_all
    · rename_i schema' heq
      rw [hfs] at heq
      injection heq with heq'
      subst heq'
      rw [if_neg hns] at h
      rw [hok1] at h
      simp only [hok2] at h
      cases h
      have hptr : p ∉ st.trace := fun hmem => hp (hinv.2.1 p hmem)
      have hinv₂ : LoaderInv fs
          { visited := p :: st.visited, trace := st.trace ++ [p],
            reg := registerDoc st.reg p schema } := by
        refine ⟨?_, ?_, ?_⟩
        · simp [List.nodup_append, hinv.1, hptr]
        · intro q hq
          rcases List.mem_append.mp hq with hq | hq
          · exact List.mem_cons_of_mem p (hinv.2.1 q hq)
          · simp at hq
            simp [hq]
        · show (registerDoc st.reg p schema) = registryOfTrace fs (st.trace ++ [p])
          rw [hinv.2.2, registryOfTrace_append fs st.trace p schema hfs]
      have hinv₄ : LoaderInv fs st₄ := ih1 ⟨st₄, h₄⟩ hok1 hinv₂
      exact ih2 ⟨st₅, h₅⟩ hok2 hinv₄

theorem loadSchemaGraph_inv (fs : List (String × XSDSchema)) (path : String)
    (st' : LoadState) (h : loadSchemaGraph fs path = .ok st') : LoaderInv fs st' := by
  unfold loadSchemaGraph at h
  cases hrec : loadGraphList fs initialLoadState [path] with
  | error e => rw [hrec] at h; cases h
  | ok r =>
    rw [hrec] at h
    cases h
    refine loadGraphList_inv fs initialLoadState [path] r hrec ?_
    refine ⟨List.nodup_nil, ?_, rfl⟩
    intro q hq
    cases hq

/-- C6: loading a schema graph terminates on every input (the loader is a
total function, well-founded on the count of unvisited files, so mutually
including documents cannot cause infinite recursion); on success each
absolute file path occurs at most once in the read trace, and the final
registry - every namespace bundle's element/complex-type/simple-type
lists included - is exactly the fold of `registerDoc` over that
duplicate-free trace, so each loaded document's declarations are appended
to its namespace's bundle exactly once. -/
theorem loader_reads_each_file_once (fs : List (String × XSDSchema)) (path : String)
    (st' : LoadState) (h : loadSchemaGraph fs path = .ok st') :
    st'.trace.Nodup ∧ st'.reg = registryOfTrace fs st'.trace :=
  ⟨(loadSchemaGraph_inv fs path st' h).1, (loadSchemaGraph_inv fs path st' h).2.2⟩

def ctA : XSDComplexType := .mk "HeaderA" none none none []

def ctB : XSDComplexType := .mk "HeaderB" none none none []

/-- File `/x/a.xsd`: namespace `urn:ab`, includes `b.xsd`. -/
def schemaA : XSDSchema :=
  { targetNamespace := "urn:ab", elements := [], complexTypes := [ctA],
    simpleTypes := [], imports := [], includes := [{ schemaLocation := "b.xsd" }] }

/-- File `/x/b.xsd`: namespace `urn:ab`, includes `a.xsd` - a cycle. -/
def schemaB : XSDSchema :=
  { targetNamespace := "urn:ab", elements := [], complexTypes := [ctB],
    simpleTypes := [], imports := [], includes := [{ schemaLocation := "a.xsd" }] }

def fsAB : List (String × XSDSchema) :=
  [("/x/a.xsd", schemaA), ("/x/b.xsd", schemaB)]

def loadedAB : LoadState :=
  { visited := ["/x/b.xsd", "/x/a.xsd"]
    trace := ["/x/a.xsd", "/x/b.xsd"]
    reg :=
      { fileToNS := [("/x/a.xsd", "urn:ab"), ("/x/b.xsd", "urn:ab")]
        bundles := [("urn:ab",
          { targetNamespace := "urn:ab", elements := [], complexTypes := [ctA, ctB],
            simpleTypes := [], imports := [] })]
        avsVersionContext := [] } }

set_option maxRecDepth 4000 in
theorem loadAB_eval : loadSchemaGraph fsAB "/x/a.xsd" = .ok loadedAB := by
  simp [loadSchemaGraph, loadGraphList, childPaths, dirOf, joinPath, registerDoc,
        lookupA, insertA, emptyBundle, setInsert, initialLoadState, fsAB, schemaA,
        schemaB, avsNamespace1, avsNamespace2, emptyRegistry, loadedAB]

/-- Witness for C6: the two mutually-including schema files load
successfully, each file is read exactly once, and the shared bundle holds
both declarations once each. -/
theorem loader_reads_each_file_once_witness :
    ∃ st', loadSchemaGraph fsAB "/x/a.xsd" = .ok st' ∧
      st'.trace.Nodup ∧ st'.reg = registryOfTrace fsAB st'.trace :=
  ⟨loadedAB, loadAB_eval, loader_reads_each_file_once fsAB "/x/a.xsd" loadedAB loadAB_eval⟩

theorem generateFieldWithDedup_num (e : XSDElement) (n : Nat)
    (pkgs : List (String × ProtoPkgInfo)) (u : List (String × Nat)) :
    (generateFieldWithDedup e n pkgs u).1.num = n := rfl

theorem generateChoiceFieldWithDedup_num (e : XSDElement) (n : Nat)
    (pkgs : List (String × ProtoPkgInfo)) (u : List (String × Nat)) :
    (generateChoiceFieldWithDedup e n pkgs u).1.num = n := rfl

theorem generateAttributeFieldWithDedup_num (a : XSDAttribute) (n : Nat)
    (pkgs : List (String × ProtoPkgInfo)) (u : List (String × Nat)) :
    (generateAttributeFieldWithDedup a n pkgs u).1.num = n := rfl

theorem genSeqFields_map (pkgs : List (String × ProtoPkgInfo)) :
    ∀ (es : List XSDElement) (n : Nat) (u : List (String × Nat)),
      ((genSeqFields pkgs es n u).1.map (fun f => f.num) = List.range' n es.length) ∧
      (genSeqFields pkgs es n u).1.length = es.length ∧
      (genSeqFields pkgs es n u).2.1 = n + es.length := by
  intro es
  induction es with
  | nil => intro n u; simp [genSeqFields]
  | cons e es ih =>
    intro n u
    have h := ih (n + 1) (generateFieldWithDedup e n pkgs u).2
    simp [genSeqFields, List.range'_succ, generateFieldWithDedup_num,
          h.1, h.2.1, h.2.2]
    omega

theorem genChoiceFields_map (pkgs : List (String × ProtoPkgInfo)) :
    ∀ (es : List XSDElement) (n : Nat) (u : List (String × Nat)),
      ((genChoiceFields pkgs es n u).1.map (fun f => f.num) = List.range' n es.length) ∧
      (genChoiceFields pkgs es n u).1.length = es.length ∧
      (genChoiceFields pkgs es n u).2.1 = n + es.length := by
  intro es
  induction es with
  | nil => intro n u; simp [genChoiceFields]
  | cons e es ih =>
    intro n u
    have h := ih (n + 1) (generateChoiceFieldWithDedup e n pkgs u).2
    simp [genChoiceFields, List.range'_succ, generateChoiceFieldWithDedup_num,
          h.1, h.2.1, h.2.2]
    omega

theorem genAttrFields_map (pkgs : List (String × ProtoPkgInfo)) :
    ∀ (as_ : List XSDAttribute) (n : Nat) (u : List (String × Nat)),
      ((genAttrFields pkgs as_ n u).1.map (fun f => f.num) = List.range' n as_.length) ∧
      (genAttrFields pkgs as_ n u).1.length = as_.length ∧
      (genAttrFields pkgs as_ n u).2.1 = n + as_.length := by
  intro as_
  induction as_ with
  | nil => intro n u; simp [genAttrFields]
  | cons a as_ ih =>
    intro n u
    have h := ih (n + 1) (generateAttributeFieldWithDedup a n pkgs u).2
    simp [genAttrFields, List.range'_succ, generateAttributeFieldWithDedup_num,
          h.1, h.2.1, h.2.2]
    omega

theorem range'_chain {xs ys : List ProtoField} {s : Nat}
    (hx : xs.map (fun f => f.num) = List.range' s xs.length)
    (hy : ys.map (fun f => f.num) = List.range' (s + xs.length) ys.length) :
    (xs ++ ys).map (fun f => f.num) = List.range' s (xs ++ ys).length := by
  rw [List.map_append, hx, hy, List.length_append, Nat.add_comm xs.length ys.length]
  have h := List.range'_append s xs.length ys.length 1
  simpa using h

theorem seqStage_spec (pkgs : List (String × ProtoPkgInfo)) (sq : Option XSDSequence)
    (n : Nat) (u : List (String × Nat)) :
    (seqStage pkgs sq n u).1.map (fun f => f.num) =
        List.range' n (seqStage pkgs sq n u).1.length ∧
      (seqStage pkgs sq n u).2.1 = n + (seqStage pkgs sq n u).1.length := by
  cases sq with
  | none => simp [seqStage]
  | some s =>
    have h := genSeqFields_map pkgs s.elements n u
    simp [seqStage, h.1, h.2.1, h.2.2]

theorem choiceStage_spec (pkgs : List (String × ProtoPkgInfo)) (ch : Option XSDChoice)
    (n : Nat) (u : List (String × Nat)) :
    (choiceStage pkgs ch n u).1.map (fun f => f.num) =
        List.range' n (choiceStage pkgs ch n u).1.length ∧
      (choiceStage pkgs ch n u).2.1 = n + (choiceStage pkgs ch n u).1.length := by
  cases ch with
  | none => simp [choiceStage]
  | some c =>
    by_cases he : c.elements.isEmpty
    · simp [choiceStage, he]
    · have h := genChoiceFields_map pkgs c.elements n u
      simp [choiceStage, he, h.1, h.2.1, h.2.2]

theorem simpleContentStage_spec (pkgs : List (String × ProtoPkgInfo))
    (sc : Option XSDSimpleContent) (n : Nat) (u : List (String × Nat)) :
    (simpleContentStage pkgs sc n u).1.map (fun f => f.num) =
        List.range' n (simpleContentStage pkgs sc n u).1.length ∧
      (simpleContentStage pkgs sc n u).2.1 = n + (simpleContentStage pkgs sc n u).1.length := by
  cases sc with
  | none => simp [simpleContentStage]
  | some scont =>
    cases scont with
    | mk ext =>
      cases ext with
      | none => simp [simpleContentStage, XSDSimpleContent.extension]
      | some e =>
        have h := genAttrFields_map pkgs e.attributes (n + 1)
          (getUniqueFieldName "value" u).2
        simp [simpleContentStage, XSDSimpleContent.extension,
              h.1, h.2.1, h.2.2, List.range'_succ]
        omega

/-- C5: for every complex type, the generated message numbers its fields
with a single counter starting at 1 over all emitted fields (sequence
elements, choice members, the synthetic simple-content value field,
extension attributes, complex-type attributes, in that order), so a
message with N fields carries exactly the numbers 1, ..., N - no gaps, no
repeats. -/
theorem fieldNumbers_consecutive (nm : String) (ct : XSDComplexType)
    (pkgs : List (String × ProtoPkgInfo)) :
    (generateComplexTypeMessage nm ct pkgs).fields.map (fun f => f.num) =
      List.range' 1 (generateComplexTypeMessage nm ct pkgs).fields.length := by
  simp only [generateComplexTypeMessage]
  have ha := seqStage_spec pkgs ct.sequence 1 []
  rcases hA : seqStage pkgs ct.sequence 1 [] with ⟨fa, na, ua⟩
  rw [hA] at ha
  simp only [hA]
  simp only at ha
  have hb := choiceStage_spec pkgs ct.choice na ua
  rcases hB : choiceStage pkgs ct.choice na ua with ⟨fb, nb, ub⟩
  rw [hB] at hb
  simp only [hB]
  simp only at hb
  have hc := simpleContentStage_spec pkgs ct.simpleContent nb ub
  rcases hC : simpleContentStage pkgs ct.simpleContent nb ub with ⟨fc, nc, uc⟩
  rw [hC] at hc
  simp only [hC]
  simp only at hc
  have hd := genAttrFields_map pkgs ct.attributes nc uc
  rcases hD : genAttrFields pkgs ct.attributes nc uc with ⟨fd, nd, ud⟩
  rw [hD] at hd
  simp only [hD]
  simp only at hd
  rw [ha.2] at hb
  rw [hb.2] at hc
  rw [hc.2] at hd
  have hd1 := hd.1
  rw [← hd.2.1] at hd1
  simp only [List.append_assoc]
  apply range'_chain ha.1
  apply range'_chain hb.1
  apply range'_chain hc.1
  exact hd1

theorem genSeqFields_flags (pkgs : List (String × ProtoPkgInfo)) :
    ∀ (es : List XSDElement) (n : Nat) (u : List (String × Nat)),
      ∀ f ∈ (genSeqFields pkgs es n u).1, f.inChoice = false := by
  intro es
  induction es with
  | nil => intro n u f hf; simp [genSeqFields] at hf
  | cons e es ih =>
    intro n u f hf
    simp only [genSeqFields, List.mem_cons] at hf
    rcases hf with hf | hf
    · subst hf; rfl
    · exact ih (n + 1) _ f hf

theorem genChoiceFields_flags (pkgs : List (String × ProtoPkgInfo)) :
    ∀ (es : List XSDElement) (n : Nat) (u : List (String × Nat)),
      ∀ f ∈ (genChoiceFields pkgs es n u).1, f.inChoice = true ∧ f.repeated = false := by
  intro es
  induction es with
  | nil => intro n u f hf; simp [genChoiceFields] at hf
  | cons e es ih =>
    intro n u f hf
    simp only [genChoiceFields, List.mem_cons] at hf
    rcases hf with hf | hf
    · subst hf; exact ⟨rfl, rfl⟩
    · exact ih (n + 1) _ f hf

theorem genAttrFields_flags (pkgs : List (String × ProtoPkgInfo)) :
    ∀ (as_ : List XSDAttribute) (n : Nat) (u : List (String × Nat)),
      ∀ f ∈ (genAttrFields pkgs as_ n u).1, f.inChoice = false := by
  intro as_
  induction as_ with
  | nil => intro n u f hf; simp [genAttrFields] at hf
  | cons a as_ ih =>
    intro n u f hf
    simp only [genAttrFields, List.mem_cons] at hf
    rcases hf with hf | hf
    · subst hf; rfl
    · exact ih (n + 1) _ f hf

theorem seqStage_flags (pkgs : List (String × ProtoPkgInfo)) (sq : Option XSDSequence)
    (n : Nat) (u : List (String × Nat)) :
    ∀ f ∈ (seqStage pkgs sq n u).1, f.inChoice = false := by
  cases sq with
  | none => intro f hf; simp [seqStage] at hf
  | some s => exact genSeqFields_flags pkgs s.elements n u

theorem simpleContentStage_flags (pkgs : List (String × ProtoPkgInfo))
    (sc : Option XSDSimpleContent) (n : Nat) (u : List (String × Nat)) :
    ∀ f ∈ (simpleContentStage pkgs sc n u).1, f.inChoice = false := by
  cases sc with
  | none => intro f hf; simp [simpleContentStage] at hf
  | some scont =>
    cases scont with
    | mk ext =>
      cases ext with
      | none => intro f hf; simp [simpleContentStage, XSDSimpleContent.extension] at hf
      | some e =>
        intro f hf
        simp only [simpleContentStage, XSDSimpleContent.extension, List.mem_cons] at hf
        rcases hf with hf | hf
        · subst hf; rfl
        · exact genAttrFields_flags pkgs e.attributes (n + 1) _ f hf

/-- C7: a complex type carrying a non-empty choice of N elements yields a
message with exactly one exclusive-choice (oneof) group, whose member
fields are exactly the N fields marked as choice members, and none of
those members is `repeated` - regardless of each member's own
`maxOccurs`, including `unbounded`. -/
theorem choice_oneof_members (nm : String) (ct : XSDComplexType)
    (pkgs : List (String × ProtoPkgInfo)) (ch : XSDChoice)
    (hch : ct.choice = some ch) (hne : ch.elements ≠ []) :
    (generateComplexTypeMessage nm ct pkgs).hasChoiceGroup = true ∧
    ((generateComplexTypeMessage nm ct pkgs).fields.filter (fun f => f.inChoice)).length
        = ch.elements.length ∧
    ∀ f ∈ (generateComplexTypeMessage nm ct pkgs).fields.filter (fun f => f.inChoice),
      f.repeated = false := by
  have hnemp : ch.elements.isEmpty = false := by
    cases hel : ch.elements with
    | nil => exact absurd hel hne
    | cons x xs => rfl
  simp only [generateComplexTypeMessage, hch]
  have hben := genChoiceFields_map pkgs ch.elements
    (seqStage pkgs ct.sequence 1 []).2.1 (seqStage pkgs ct.sequence 1 []).2.2
  have hflagA := seqStage_flags pkgs ct.sequence 1 []
  have hflagB := genChoiceFields_flags pkgs ch.elements
    (seqStage pkgs ct.sequence 1 []).2.1 (seqStage pkgs ct.sequence 1 []).2.2
  have hchst : choiceStage pkgs (some ch) (seqStage pkgs ct.sequence 1 []).2.1
      (seqStage pkgs ct.sequence 1 []).2.2 =
      genChoiceFields pkgs ch.elements (seqStage pkgs ct.sequence 1 []).2.1
        (seqStage pkgs ct.sequence 1 []).2.2 := by
    simp [choiceStage, hnemp]
  rw [hchst]
  have hflagC := simpleContentStage_flags pkgs ct.simpleContent
    (genChoiceFields pkgs ch.elements (seqStage pkgs ct.sequence 1 []).2.1
      (seqStage pkgs ct.sequence 1 []).2.2).2.1
    (genChoiceFields pkgs ch.elements (seqStage pkgs ct.sequence 1 []).2.1
      (seqStage pkgs ct.sequence 1 []).2.2).2.2
  have hflagD := genAttrFields_flags pkgs ct.attributes
    (simpleContentStage pkgs ct.simpleContent
      (genChoiceFields pkgs ch.elements (seqStage pkgs ct.sequence 1 []).2.1
        (seqStage pkgs ct.sequence 1 []).2.2).2.1
      (genChoiceFields pkgs ch.elements (seqStage pkgs ct.sequence 1 []).2.1
        (seqStage pkgs ct.sequence 1 []).2.2).2.2).2.1
    (simpleContentStage pkgs ct.simpleContent
      (genChoiceFields pkgs ch.elements (seqStage pkgs ct.sequence 1 []).2.1
        (seqStage pkgs ct.sequence 1 []).2.2).2.1
      (genChoiceFields pkgs ch.elements (seqStage pkgs ct.sequence 1 []).2.1
        (seqStage pkgs ct.sequence 1 []).2.2).2.2).2.2
  have hfilter :
      (((seqStage pkgs ct.sequence 1 []).1 ++
        ((genChoiceFields pkgs ch.elements (seqStage pkgs ct.sequence 1 []).2.1
            (seqStage pkgs ct.sequence 1 []).2.2).1 ++
          ((simpleContentStage pkgs ct.simpleContent
              (genChoiceFields pkgs ch.elements (seqStage pkgs ct.sequence 1 []).2.1
                (seqStage pkgs ct.sequence 1 []).2.2).2.1
              (genChoiceFields pkgs ch.elements (seqStage pkgs ct.sequence 1 []).2.1
                (seqStage pkgs ct.sequence 1 []).2.2).2.2).1 ++
            (genAttrFields pkgs ct.attributes
              (simpleContentStage pkgs ct.simpleContent
                (genChoiceFields pkgs ch.elements (seqStage pkgs ct.sequence 1 []).2.1
                  (seqStage pkgs ct.sequence 1 []).2.2).2.1
                (genChoiceFields pkgs ch.elements (seqStage pkgs ct.sequence 1 []).2.1
                  (seqStage pkgs ct.sequence 1 []).2.2).2.2).2.1
              (simpleContentStage pkgs ct.simpleContent
                (genChoiceFields pkgs ch.elements (seqStage pkgs ct.sequence 1 []).2.1
                  (seqStage pkgs ct.sequence 1 []).2.2).2.1
                (genChoiceFields pkgs ch.elements (seqStage pkgs ct.sequence 1 []).2.1
                  (seqStage pkgs ct.sequence 1 []).2.2).2.2).2.2).1))).filter
          (fun f => f.inChoice)) =
      (genChoiceFields pkgs ch.elements (seqStage pkgs ct.sequence 1 []).2.1
        (seqStage pkgs ct.sequence 1 []).2.2).1 := by
    rw [List.filter_append, List.filter_append, List.filter_append]
    rw [List.filter_eq_nil_iff.mpr (by intro f hf; simp [hflagA f hf]),
        List.filter_eq_self.mpr (by intro f hf; simp [(hflagB f hf).1]),
        List.filter_eq_nil_iff.mpr (by intro f hf; simp [hflagC f hf]),
        List.filter_eq_nil_iff.mpr (by intro f hf; simp [hflagD f hf])]
    simp
  constructor
  · simp [hnemp]
  constructor
  · simp only [List.append_assoc] at hfilter ⊢
    rw [hfilter, hben.2.1]
  · simp only [List.append_assoc] at hfilter ⊢
    rw [hfilter]
    intro f hf
    exact (hflagB f hf).2

def pickChoice : XSDChoice :=
  .mk "" "" [.mk "A" "xs:string" "" "" none,
             .mk "B" "xs:string" "" "unbounded" none,
             .mk "C" "xs:string" "" "" none]

def choiceCT : XSDComplexType := .mk "Pick" none (some pickChoice) none []

/-- Witness for C7: a choice of three members, one of them
`maxOccurs="unbounded"`, yields one oneof of exactly three non-repeated
members. -/
theorem choice_oneof_members_witness :
    (generateComplexTypeMessage "Pick" choiceCT []).hasChoiceGroup = true ∧
    ((generateComplexTypeMessage "Pick" choiceCT []).fields.filter
        (fun f => f.inChoice)).length = pickChoice.elements.length ∧
    ∀ f ∈ (generateComplexTypeMessage "Pick" choiceCT []).fields.filter
        (fun f => f.inChoice), f.repeated = false :=
  choice_oneof_members "Pick" choiceCT [] pickChoice rfl
    (by simp [pickChoice, XSDChoice.elements])

def unspecifiedSimpleType : XSDSimpleType :=
  { name := "Status",
    restriction := some { base := "xs:string",
                          enumerations := [{ value := "Unspecified" }] } }

/-- C2 (refutation): when a literal enumeration value sanitizes to the
sentinel token `UNSPECIFIED`, `generateEnum` emits a second member with
the very same name as the zero-valued sentinel (the `seenValues` dedup
set is seeded empty, without the sentinel), so the sentinel's name is
not distinct from every literal-derived member and a duplicate member
name is emitted - invalid proto3 output. -/
theorem generateEnum_sentinel_duplicated :
    generateEnum unspecifiedSimpleType =
      { name := "Status",
        members := [{ name := "STATUS_UNSPECIFIED", value := 0 },
                    { name := "STATUS_UNSPECIFIED", value := 1 }] } ∧
    ¬ ((generateEnum unspecifiedSimpleType).members.map (fun m => m.name)).Nodup := by
  constructor
  · decide
  · decide

def pkgInfoV1 : ProtoPkgInfo :=
  { pkgName := "ddex.qq.v1", goPackage := "g1", filePath := "ddex/qq/v1/v1.proto" }

def pkgInfoV2 : ProtoPkgInfo :=
  { pkgName := "ddex.qq.v2", goPackage := "g2", filePath := "ddex/qq/v2/v2.proto" }

def pkgsOrderA : List (String × ProtoPkgInfo) :=
  [("http://x.com/qq/1", pkgInfoV1), ("http://y.com/qq/2", pkgInfoV2)]

def pkgsOrderB : List (String × ProtoPkgInfo) :=
  [("http://y.com/qq/2", pkgInfoV2), ("http://x.com/qq/1", pkgInfoV1)]

/-- C1 (refutation): `xsdTypeToProto`'s fallback scans the
namespace-to-unit map in iteration order; on the same map contents
(`pkgsOrderA` and `pkgsOrderB` are permutations of each other, i.e. equal
as Go maps) presented in two different orders - which a Go `map` range is
free to do between two runs - the translator returns two different type
expressions for the same qualified type name, so its output is not a
function of the input alone. -/
theorem xsdTypeToProto_order_dependent :
    pkgsOrderA.Perm pkgsOrderB ∧
    xsdTypeToProto "qq:Foo" pkgsOrderA = "ddex.qq.v1.Foo" ∧
    xsdTypeToProto "qq:Foo" pkgsOrderB = "ddex.qq.v2.Foo" ∧
    xsdTypeToProto "qq:Foo" pkgsOrderA ≠ xsdTypeToProto "qq:Foo" pkgsOrderB := by
  refine ⟨?_, by decide, by decide, by decide⟩
  decide

/-- C9: a sequence element, choice member, or attribute whose type
attribute is the empty string yields a field of type `string`; the type
translator is never consulted, so no `Unmapped XSD type` diagnostic is
logged for it. -/
theorem empty_type_defaults_string (pkgs : List (String × ProtoPkgInfo))
    (el : XSDElement) (attr : XSDAttribute) (n m k : Nat)
    (u v w : List (String × Nat))
    (hel : el.type = "") (hattr : attr.type = "") :
    (generateFieldWithDedup el n pkgs u).1.type = "string" ∧
    (generateChoiceFieldWithDedup el m pkgs v).1.type = "string" ∧
    (generateAttributeFieldWithDedup attr k pkgs w).1.type = "string" ∧
    elementFieldLogs el pkgs = [] ∧
    attributeFieldLogs attr pkgs = [] := by
  refine ⟨?_, ?_, ?_, ?_, ?_⟩ <;>
    simp [generateFieldWithDedup, generateChoiceFieldWithDedup,
          generateAttributeFieldWithDedup, elementFieldLogs, attributeFieldLogs,
          hel, hattr]

/-- Witness for C9 at a concrete typeless element and attribute. -/
theorem empty_type_defaults_string_witness :
    (generateFieldWithDedup (.mk "Inner" "" "" "" none) 1 [] []).1.type = "string" ∧
    (generateChoiceFieldWithDedup (.mk "Inner" "" "" "" none) 2 [] []).1.type = "string" ∧
    (generateAttributeFieldWithDedup { name := "Flag", type := "", use := "" } 3 [] []).1.type
        = "string" ∧
    elementFieldLogs (.mk "Inner" "" "" "" none) [] = [] ∧
    attributeFieldLogs { name := "Flag", type := "", use := "" } [] = [] :=
  empty_type_defaults_string [] (.mk "Inner" "" "" "" none)
    { name := "Flag", type := "", use := "" } 1 2 3 [] [] [] rfl rfl

/-! ### C8: AVS-prefixed types and enum emission -/

def primitiveXsdNames : List String :=
  ["string", "normalizedString", "token", "anyURI", "NMTOKEN",
   "int", "integer", "positiveInteger", "PositiveInteger", "long", "boolean",
   "decimal", "float", "double", "dateTime", "date", "time", "duration",
   "gYear", "GYear", "ddex_IsoDate", "Ddex_IsoDate", "base64Binary"]

theorem splitQName_avs (rest : String) :
    splitQName ("avs:" ++ rest) = ("avs", rest) := by
  have hdata : ("avs:" ++ rest).data = 'a' :: 'v' :: 's' :: ':' :: rest.data := rfl
  simp [splitQName, hdata, splitColonAux]

theorem genEnumDecls_emits :
    ∀ (sts : List XSDSimpleType) (generated : List String) (st : XSDSimpleType)
      (r : XSDRestriction),
      st ∈ sts → st.name ≠ "" → st.restriction = some r → r.enumerations ≠ [] →
      toProtoEnumName st.name ∉ generated →
      ∃ e ∈ (genEnumDecls sts generated).1,
        e.name = removeUnderscores (toProtoEnumName st.name) := by
  intro sts
  induction sts with
  | nil => intro generated st r hmem; cases hmem
  | cons s rest ih =>
    intro generated st r hmem hname hres henum hgen
    rcases List.mem_cons.mp hmem with heq | hmem'
    · subst heq
      have helig : (st.name ≠ "" && (match st.restriction with
          | some r => !r.enumerations.isEmpty
          | none => false) : Bool) = true := by
        rw [hres]
        simp [hname, henum]
      simp only [genEnumDecls, helig, if_true]
      rw [if_neg hgen]
      exact ⟨generateEnum st, List.mem_cons_self _ _, rfl⟩
    · by_cases helig : (s.name ≠ "" && (match s.restriction with
          | some r => !r.enumerations.isEmpty
          | none => false) : Bool) = true
      · simp only [genEnumDecls, helig, if_true]
        by_cases hsg : toProtoEnumName s.name ∈ generated
        · rw [if_pos hsg]
          exact ih generated st r hmem' hname hres henum hgen
        · rw [if_neg hsg]
          by_cases hkey : toProtoEnumName st.name = toProtoEnumName s.name
          · refine ⟨generateEnum s, List.mem_cons_self _ _, ?_⟩
            show removeUnderscores (toProtoMessageName s.name) =
              removeUnderscores (toProtoEnumName st.name)
            rw [hkey]
            rfl
          · have hgen' : toProtoEnumName st.name ∉ generated ++ [toProtoEnumName s.name] := by
              intro hmem''
              rcases List.mem_append.mp hmem'' with h | h
              · exact hgen h
              · simp at h
                exact hkey h
            obtain ⟨e, hel, hname'⟩ := ih (generated ++ [toProtoEnumName s.name])
              st r hmem' hname hres henum hgen'
            exact ⟨e, List.mem_cons_of_mem _ hel, hname'⟩
      · simp only [genEnumDecls, helig, if_false]
        exact ih generated st r hmem' hname hres henum hgen

/-- C8: an `avs:`-prefixed non-primitive type is rendered by the
translator as the plain `string` type inside message fields, while an
enumeration-restricted simple type of a shared-vocabulary bundle (whose
aggregated documents carry only simple types, as the AVS documents do)
still has its enum declaration emitted in that bundle's unit. -/
theorem avs_types_string_and_enum_emitted :
    (∀ (rest : String) (pkgs : List (String × ProtoPkgInfo)),
      rest ∉ primitiveXsdNames → xsdTypeToProto ("avs:" ++ rest) pkgs = "string") ∧
    (∀ (b : NamespaceBundle) (pkg gp : String) (all : List (String × ProtoPkgInfo))
       (ctx : List (String × String)) (st : XSDSimpleType) (r : XSDRestriction),
      b.elements = [] → b.complexTypes = [] →
      st ∈ b.simpleTypes → st.name ≠ "" → st.restriction = some r →
      r.enumerations ≠ [] →
      ∃ e ∈ (generateProtoForBundle b pkg gp all ctx).enums,
        e.name = removeUnderscores (toProtoEnumName st.name)) := by
  constructor
  · intro rest pkgs hprim
    simp only [primitiveXsdNames, List.mem_cons, not_or] at hprim
    simp only [xsdTypeToProto, xsdTypeToProtoCore, splitQName_avs]
    obtain ⟨h1, h2, h3, h4, h5, h6, h7, h8, h9, h10, h11, h12, h13, h14, h15,
      h16, h17, h18, h19, h20, h21, h22, h23, -⟩ := hprim
    simp [h1, h2, h3, h4, h5, h6, h7, h8, h9, h10, h11, h12, h13, h14, h15,
      h16, h17, h18, h19, h20, h21, h22, h23]
  · intro b pkg gp all ctx st r hel hct hmem hname hres henum
    have hgen := genEnumDecls_emits b.simpleTypes
      (genCTMessages all b.complexTypes (genElemMessages all b.elements []).2).2
      st r hmem hname hres henum
    rw [hel, hct] at hgen
    simp only [genElemMessages, genCTMessages] at hgen
    have h := hgen (by simp)
    simpa [generateProtoForBundle, hel, hct, genElemMessages, genCTMessages] using h

def avsTerritoryRestriction : XSDRestriction :=
  { base := "xs:string",
    enumerations := [{ value := "US" }, { value := "DE" }] }

def avsTerritoryType : XSDSimpleType :=
  { name := "TerritoryCode", restriction := some avsTerritoryRestriction }

def avsBundle : NamespaceBundle :=
  { targetNamespace := "http://ddex.net/xml/avs/avs", elements := [],
    complexTypes := [], simpleTypes := [avsTerritoryType], imports := [] }

/-- Witness for C8: `avs:TerritoryCode` renders as `string` in a field,
while the `TerritoryCode` enum is still emitted in the AVS unit. -/
theorem avs_types_string_and_enum_emitted_witness :
    xsdTypeToProto ("avs:" ++ "TerritoryCode") [] = "string" ∧
    ∃ e ∈ (generateProtoForBundle avsBundle "ddex.avs" "g" [] []).enums,
      e.name = removeUnderscores (toProtoEnumName "TerritoryCode") :=
  ⟨avs_types_string_and_enum_emitted.1 "TerritoryCode" [] (by decide),
   avs_types_string_and_enum_emitted.2 avsBundle "ddex.avs" "g" [] []
     avsTerritoryType avsTerritoryRestriction
     rfl rfl (by simp [avsBundle, avsTerritoryType]) (by decide) rfl (by decide)⟩

/-! ### C10: inline complex types on nested elements are never consulted -/

/-- Drop the inline complex type of one (nested) element. -/
def clearInline : XSDElement → XSDElement
  | .mk n t mn mx _ => .mk n t mn mx none

/-- Drop the inline complex types of every element nested in a complex
type's sequence or choice. -/
def eraseNestedInline : XSDComplexType → XSDComplexType
  | .mk n sq ch sc ats =>
    .mk n (sq.map (fun s => .mk (s.elements.map clearInline)))
      (ch.map (fun c => .mk c.minOccurs c.maxOccurs (c.elements.map clearInline)))
      sc ats

/-- On a top-level element, keep the inline complex type itself (it does
produce a message) but erase the inline types nested inside it. -/
def eraseTopElem : XSDElement → XSDElement
  | .mk n t mn mx c => .mk n t mn mx (c.map eraseNestedInline)

/-- Apply `eraseNestedInline` below a bundle's top-level elements (whose
own inline types do produce messages) and to its named complex types. -/
def eraseBundleNestedInline (b : NamespaceBundle) : NamespaceBundle :=
  { b with
    elements := b.elements.map eraseTopElem
    complexTypes := b.complexTypes.map eraseNestedInline }

theorem generateFieldWithDedup_clearInline (el : XSDElement) (n : Nat)
    (pkgs : List (String × ProtoPkgInfo)) (u : List (String × Nat)) :
    generateFieldWithDedup (clearInline el) n pkgs u = generateFieldWithDedup el n pkgs u := by
  cases el
  rfl

theorem generateChoiceFieldWithDedup_clearInline (el : XSDElement) (n : Nat)
    (pkgs : List (String × ProtoPkgInfo)) (u : List (String × Nat)) :
    generateChoiceFieldWithDedup (clearInline el) n pkgs u =
      generateChoiceFieldWithDedup el n pkgs u := by
  cases el
  rfl

theorem genSeqFields_clearInline (pkgs : List (String × ProtoPkgInfo)) :
    ∀ (es : List XSDElement) (n : Nat) (u : List (String × Nat)),
      genSeqFields pkgs (es.map clearInline) n u = genSeqFields pkgs es n u := by
  intro es
  induction es with
  | nil => intro n u; rfl
  | cons e es ih =>
    intro n u
    simp only [List.map_cons, genSeqFields, generateFieldWithDedup_clearInline, ih]

theorem genChoiceFields_clearInline (pkgs : List (String × ProtoPkgInfo)) :
    ∀ (es : List XSDElement) (n : Nat) (u : List (String × Nat)),
      genChoiceFields pkgs (es.map clearInline) n u = genChoiceFields pkgs es n u := by
  intro es
  induction es with
  | nil => intro n u; rfl
  | cons e es ih =>
    intro n u
    simp only [List.map_cons, genChoiceFields, generateChoiceFieldWithDedup_clearInline, ih]

theorem generateComplexTypeMessage_eraseNested (nm : String) (ct : XSDComplexType)
    (pkgs : List (String × ProtoPkgInfo)) :
    generateComplexTypeMessage nm (eraseNestedInline ct) pkgs =
      generateComplexTypeMessage nm ct pkgs := by
  obtain ⟨n, sq, ch, sc, ats⟩ := ct
  simp only [generateComplexTypeMessage, eraseNestedInline,
    XSDComplexType.sequence, XSDComplexType.choice, XSDComplexType.simpleContent,
    XSDComplexType.attributes]
  have hsq : seqStage pkgs (sq.map (fun s => XSDSequence.mk (s.elements.map clearInline))) 1 [] =
      seqStage pkgs sq 1 [] := by
    cases sq with
    | none => rfl
    | some s =>
      cases s with
      | mk es => simp [seqStage, XSDSequence.elements, genSeqFields_clearInline]
  rw [hsq]
  have hch : choiceStage pkgs
      (ch.map (fun c => XSDChoice.mk c.minOccurs c.maxOccurs (c.elements.map clearInline)))
      (seqStage pkgs sq 1 []).2.1 (seqStage pkgs sq 1 []).2.2 =
      choiceStage pkgs ch (seqStage pkgs sq 1 []).2.1 (seqStage pkgs sq 1 []).2.2 := by
    cases ch with
    | none => rfl
    | some c =>
      cases c with
      | mk mn mx es =>
        simp only [Option.map, choiceStage, XSDChoice.elements]
        by_cases he : es.isEmpty
        · have he' : (es.map clearInline).isEmpty = true := by
            cases es with
            | nil => rfl
            | cons x xs => simp at he
          rw [he', if_pos rfl, he, if_pos rfl]
        · have he' : (es.map clearInline).isEmpty = false := by
            cases es with
            | nil => simp at he
            | cons x xs => rfl
          have he'' : es.isEmpty = false := by
            cases hx : es.isEmpty
            · rfl
            · exact absurd hx he
          rw [he', he'']
          simp only [if_false, Bool.false_eq_true]
          rw [genChoiceFields_clearInline]
  rw [hch]
  cases ch with
  | none => rfl
  | some c =>
    cases c with
    | mk mn mx es =>
      cases es with
      | nil => rfl
      | cons x xs => rfl

theorem genElemMessages_eraseNested (all : List (String × ProtoPkgInfo)) :
    ∀ (els : List XSDElement) (generated : List String),
      genElemMessages all (els.map eraseTopElem) generated =
      genElemMessages all els generated := by
  intro els
  induction els with
  | nil => intro generated; rfl
  | cons e es ih =>
    intro generated
    obtain ⟨n, t, mn, mx, c⟩ := e
    cases c with
    | none =>
      simp only [List.map_cons, eraseTopElem, Option.map_none']
      simp only [genElemMessages, XSDElement.complexType, XSDElement.name]
      exact ih generated
    | some ct =>
      simp only [List.map_cons, eraseTopElem, Option.map_some']
      simp only [genElemMessages, XSDElement.complexType, XSDElement.name]
      rw [generateComplexTypeMessage_eraseNested, ih, ih]

theorem eraseNestedInline_name (ct : XSDComplexType) :
    (eraseNestedInline ct).name = ct.name := by
  cases ct
  rfl

theorem genCTMessages_eraseNested (all : List (String × ProtoPkgInfo)) :
    ∀ (cts : List XSDComplexType) (generated : List String),
      genCTMessages all (cts.map eraseNestedInline) generated =
      genCTMessages all cts generated := by
  intro cts
  induction cts with
  | nil => intro generated; rfl
  | cons ct cts ih =>
    intro generated
    simp only [List.map_cons, genCTMessages, eraseNestedInline_name]
    by_cases hn : ct.name = ""
    · simp only [hn, if_pos rfl]
      exact ih generated
    · rw [if_neg hn, if_neg hn]
      by_cases hg : toProtoMessageName ct.name ∈ generated
      · rw [if_pos hg, if_pos hg]
        exact ih generated
      · rw [if_neg hg, if_neg hg]
        rw [generateComplexTypeMessage_eraseNested, ih]

/-- C10: only top-level elements with an inline complex type produce a
message; an inline complex type on an element nested inside a sequence or
choice is never consulted - the generated unit is unchanged when every
nested inline type is erased - and the containing field (which has no
type reference) is emitted with the default `string` type, so the nested
inline structure is silently dropped. -/
theorem nested_inline_complexType_dropped :
    (∀ (b : NamespaceBundle) (pkg gp : String) (all : List (String × ProtoPkgInfo))
       (ctx : List (String × String)),
      generateProtoForBundle (eraseBundleNestedInline b) pkg gp all ctx =
        generateProtoForBundle b pkg gp all ctx) ∧
    (∀ (el : XSDElement) (n m : Nat) (pkgs : List (String × ProtoPkgInfo))
       (u v : List (String × Nat)) (c : XSDComplexType),
      el.complexType = some c → el.type = "" →
      (generateFieldWithDedup el n pkgs u).1.type = "string" ∧
      (generateChoiceFieldWithDedup el m pkgs v).1.type = "string") := by
  constructor
  · intro b pkg gp all ctx
    obtain ⟨ns, els, cts, sts, imps⟩ := b
    simp only [generateProtoForBundle, eraseBundleNestedInline]
    rw [genElemMessages_eraseNested, genCTMessages_eraseNested]
    rfl
  · intro el n m pkgs u v c hct htype
    exact ⟨by simp [generateFieldWithDedup, htype],
           by simp [generateChoiceFieldWithDedup, htype]⟩

def nestedInlineElement : XSDElement :=
  .mk "Inner" "" "" "" (some (.mk "" (some (.mk [.mk "Leaf" "xs:string" "" "" none]))
    none none []))

def nestedBundle : NamespaceBundle :=
  { targetNamespace := "urn:n", elements := [],
    complexTypes := [.mk "Outer" (some (.mk [nestedInlineElement])) none none []],
    simpleTypes := [], imports := [] }

/-- Witness for C10: a bundle whose only complex type nests an
inline-typed element generates the same unit after that inline type is
erased, and the nested element's field is a plain `string`. -/
theorem nested_inline_complexType_dropped_witness :
    generateProtoForBundle (eraseBundleNestedInline nestedBundle) "p" "g" [] [] =
      generateProtoForBundle nestedBundle "p" "g" [] [] ∧
    (generateFieldWithDedup nestedInlineElement 1 [] []).1.type = "string" ∧
    (generateChoiceFieldWithDedup nestedInlineElement 1 [] []).1.type = "string" :=
  ⟨nested_inline_complexType_dropped.1 nestedBundle "p" "g" [] [],
   nested_inline_complexType_dropped.2 nestedInlineElement 1 1 [] [] []
     (.mk "" (some (.mk [.mk "Leaf" "xs:string" "" "" none])) none none [])
     rfl rfl⟩

/-! ### C4: deduplication across bundle merges -/

theorem generateComplexTypeMessage_name (nm : String) (ct : XSDComplexType)
    (pkgs : List (String × ProtoPkgInfo)) :
    (generateComplexTypeMessage nm ct pkgs).name = toProtoMessageName nm := rfl

/-- The first named complex type of the bundle whose generated message
name is `nm` (the declaration that first-wins dedup will emit). -/
def findFirstCT : List XSDComplexType → String → Option XSDComplexType
  | [], _ => none
  | ct :: rest, nm =>
    if ct.name ≠ "" ∧ toProtoMessageName ct.name = nm then some ct
    else findFirstCT rest nm

theorem genElemMessages_msgs (all : List (String × ProtoPkgInfo)) :
    ∀ (els : List XSDElement) (g : List String) (m : ProtoMessage),
      m ∈ (genElemMessages all els g).1 →
      ∃ el ∈ els, ∃ c, el.complexType = some c ∧ m.name = toProtoMessageName el.name := by
  intro els
  induction els with
  | nil => intro g m hm; simp [genElemMessages] at hm
  | cons e es ih =>
    intro g m hm
    obtain ⟨n, t, mn, mx, c⟩ := e
    cases c with
    | none =>
      simp only [genElemMessages, XSDElement.complexType] at hm
      obtain ⟨el, hel, c, hcc, hname⟩ := ih g m hm
      exact ⟨el, List.mem_cons_of_mem _ hel, c, hcc, hname⟩
    | some ct =>
      simp only [genElemMessages, XSDElement.complexType, XSDElement.name] at hm
      by_cases hg : toProtoMessageName n ∈ g
      · rw [if_pos hg] at hm
        obtain ⟨el, hel, c, hcc, hname⟩ := ih g m hm
        exact ⟨el, List.mem_cons_of_mem _ hel, c, hcc, hname⟩
      · rw [if_neg hg] at hm
        rcases List.mem_cons.mp hm with hm | hm
        · exact ⟨.mk n t mn mx (some ct), List.mem_cons_self _ _, ct, rfl,
            by rw [hm, generateComplexTypeMessage_name]; rfl⟩
        · obtain ⟨el, hel, c, hcc, hname⟩ := ih (g ++ [toProtoMessageName n]) m hm
          exact ⟨el, List.mem_cons_of_mem _ hel, c, hcc, hname⟩

theorem genElemMessages_gen (all : List (String × ProtoPkgInfo)) :
    ∀ (els : List XSDElement) (g : List String) (x : String),
      x ∈ (genElemMessages all els g).2 →
      x ∈ g ∨ ∃ el ∈ els, ∃ c, el.complexType = some c ∧ x = toProtoMessageName el.name := by
  intro els
  induction els with
  | nil => intro g x hx; simp only [genElemMessages] at hx; exact Or.inl hx
  | cons e es ih =>
    intro g x hx
    obtain ⟨n, t, mn, mx, c⟩ := e
    cases c with
    | none =>
      simp only [genElemMessages, XSDElement.complexType] at hx
      rcases ih g x hx with h | ⟨el, hel, c, hcc, hname⟩
      · exact Or.inl h
      · exact Or.inr ⟨el, List.mem_cons_of_mem _ hel, c, hcc, hname⟩
    | some ct =>
      simp only [genElemMessages, XSDElement.complexType, XSDElement.name] at hx
      by_cases hg : toProtoMessageName n ∈ g
      · rw [if_pos hg] at hx
        rcases ih g x hx with h | ⟨el, hel, c, hcc, hname⟩
        · exact Or.inl h
        · exact Or.inr ⟨el, List.mem_cons_of_mem _ hel, c, hcc, hname⟩
      · rw [if_neg hg] at hx
        rcases ih (g ++ [toProtoMessageName n]) x hx with h | ⟨el, hel, c, hcc, hname⟩
        · rcases List.mem_append.mp h with h | h
          · exact Or.inl h
          · simp at h
            exact Or.inr ⟨.mk n t mn mx (some ct), List.mem_cons_self _ _, ct, rfl, h⟩
        · exact Or.inr ⟨el, List.mem_cons_of_mem _ hel, c, hcc, hname⟩

theorem genCTMessages_names_fresh (all : List (String × ProtoPkgInfo)) :
    ∀ (cts : List XSDComplexType) (g : List String) (m : ProtoMessage),
      m ∈ (genCTMessages all cts g).1 → m.name ∉ g := by
  intro cts
  induction cts with
  | nil => intro g m hm; simp [genCTMessages] at hm
  | cons ct cts ih =>
    intro g m hm
    simp only [genCTMessages] at hm
    by_cases hn : ct.name = ""
    · rw [if_pos hn] at hm
      exact ih g m hm
    · rw [if_neg hn] at hm
      by_cases hg : toProtoMessageName ct.name ∈ g
      · rw [if_pos hg] at hm
        exact ih g m hm
      · rw [if_neg hg] at hm
        rcases List.mem_cons.mp hm with hm | hm
        · rw [hm, generateComplexTypeMessage_name]
          exact hg
        · intro hmem
          exact ih (g ++ [toProtoMessageName ct.name]) m hm
            (List.mem_append.mpr (Or.inl hmem))

theorem genCTMessages_filter_first (all : List (String × ProtoPkgInfo)) (nm : String) :
    ∀ (cts : List XSDComplexType) (g : List String) (ct : XSDComplexType),
      nm ∉ g → findFirstCT cts nm = some ct →
      (genCTMessages all cts g).1.filter (fun m => m.name = nm) =
        [generateComplexTypeMessage ct.name ct all] := by
  intro cts
  induction cts with
  | nil => intro g ct hg hf; simp [findFirstCT] at hf
  | cons ct₀ cts ih =>
    intro g ct hg hf
    simp only [findFirstCT] at hf
    simp only [genCTMessages]
    by_cases hn : ct₀.name = ""
    · have hcond : ¬(ct₀.name ≠ "" ∧ toProtoMessageName ct₀.name = nm) := by
        intro hc; exact hc.1 hn
      rw [if_neg hcond] at hf
      rw [if_pos hn]
      exact ih g ct hg hf
    · rw [if_neg hn]
      by_cases heq : toProtoMessageName ct₀.name = nm
      · have hcond : ct₀.name ≠ "" ∧ toProtoMessageName ct₀.name = nm := ⟨hn, heq⟩
        rw [if_pos hcond] at hf
        cases hf
        have hg' : toProtoMessageName ct₀.name ∉ g := by rw [heq]; exact hg
        rw [if_neg hg']
        have hhead : ((generateComplexTypeMessage ct₀.name ct₀ all).name = nm) := by
          rw [generateComplexTypeMessage_name, heq]
        have htail : (genCTMessages all cts (g ++ [toProtoMessageName ct₀.name])).1.filter
            (fun m => m.name = nm) = [] := by
          rw [List.filter_eq_nil_iff]
          intro m hm
          have hfresh := genCTMessages_names_fresh all cts
            (g ++ [toProtoMessageName ct₀.name]) m hm
          simp only [decide_eq_true_eq]
          intro hmn
          exact hfresh (List.mem_append.mpr (Or.inr (by simp [hmn, heq])))
        rw [List.filter_cons, htail]
        simp [hhead]
      · have hcond : ¬(ct₀.name ≠ "" ∧ toProtoMessageName ct₀.name = nm) := by
          intro hc; exact heq hc.2
        rw [if_neg hcond] at hf
        by_cases hg₀ : toProtoMessageName ct₀.name ∈ g
        · rw [if_pos hg₀]
          exact ih g ct hg hf
        · rw [if_neg hg₀]
          have hhead : ¬((generateComplexTypeMessage ct₀.name ct₀ all).name = nm) := by
            rw [generateComplexTypeMessage_name]
            exact heq
          rw [List.filter_cons, if_neg (by simp [hhead])]
          refine ih (g ++ [toProtoMessageName ct₀.name]) ct ?_ hf
          intro hmem
          rcases List.mem_append.mp hmem with h | h
          · exact hg h
          · simp at h
            exact heq h.symm

/-- C4 (amended): the unit emitted for a bundle contains exactly one
message named `nm` whenever some named complex type generates that name
and no inline-typed top-level element claims it first; the one emitted is
the FIRST named complex type of the bundle's aggregated list with that
name - which is the primary (entry) schema's declaration, since the
loader appends the entry document's declarations before those of any
included auxiliary document.  (As the counterexample shows, an
auxiliary top-level element with an inline complex type of the same name
is emitted ahead of every named complex type, so across declaration
categories the auxiliary can win, refuting the claim as stated.) -/
theorem primary_first_ct_wins (b : NamespaceBundle) (pkg gp : String)
    (all : List (String × ProtoPkgInfo)) (ctx : List (String × String))
    (nm : String) (ct : XSDComplexType)
    (hel : ∀ el ∈ b.elements, ∀ c, el.complexType = some c →
      toProtoMessageName el.name ≠ nm)
    (hfind : findFirstCT b.complexTypes nm = some ct) :
    ((generateProtoForBundle b pkg gp all ctx).messages.filter
        (fun m => m.name = nm)) =
      [generateComplexTypeMessage ct.name ct all] := by
  simp only [generateProtoForBundle]
  rw [List.filter_append]
  have helem : (genElemMessages all b.elements []).1.filter (fun m => m.name = nm) = [] := by
    rw [List.filter_eq_nil_iff]
    intro m hm
    obtain ⟨el, hmem, c, hc, hname⟩ := genElemMessages_msgs all b.elements [] m hm
    simp only [decide_eq_true_eq]
    intro hmn
    exact hel el hmem c hc (hname.symm.trans hmn)
  rw [helem]
  have hg0 : nm ∉ (genElemMessages all b.elements []).2 := by
    intro hmem
    rcases genElemMessages_gen all b.elements [] nm hmem with h | ⟨el, hmem', c, hc, h⟩
    · cases h
    · exact hel el hmem' c hc h.symm
  rw [genCTMessages_filter_first all nm b.complexTypes
    (genElemMessages all b.elements []).2 ct hg0 hfind]
  simp

/-- Primary schema's named complex type `Foo` with field set {X}. -/
def ctFooPrimary : XSDComplexType :=
  .mk "Foo" (some (.mk [.mk "X" "xs:string" "" "" none])) none none []

/-- Auxiliary document's top-level element `Foo` with an inline complex
type of field set {Y}. -/
def elemFooAux : XSDElement :=
  .mk "Foo" "" "" "" (some (.mk "" (some (.mk [.mk "Y" "xs:string" "" "" none]))
    none none []))

def docFooPrimary : XSDSchema :=
  { targetNamespace := "urn:t", elements := [], complexTypes := [ctFooPrimary],
    simpleTypes := [], imports := [],
    includes := [{ schemaLocation := "shared.xsd" }] }

def docFooShared : XSDSchema :=
  { targetNamespace := "urn:t", elements := [elemFooAux], complexTypes := [],
    simpleTypes := [], imports := [], includes := [] }

/-- The bundle the loader builds: primary registered first, shared folded
in second. -/
def mergedFooBundle : NamespaceBundle :=
  { targetNamespace := "urn:t", elements := [elemFooAux],
    complexTypes := [ctFooPrimary], simpleTypes := [], imports := [] }

/-- C4 (refutation): fold a primary document defining complex type `Foo`
with field `X` and an auxiliary/shared document defining a same-named
top-level element with inline fields `Y` into one bundle (primary first,
exactly as `loadSchemaGraph` does); the emitted unit has exactly one
declaration named `Foo` - but its shape is the auxiliary's `{Y}`, not the
primary's `{X}`, because the emitter's element loop runs before its
complex-type loop. -/
theorem primary_wins_counterexample :
    lookupA (registerDoc (registerDoc emptyRegistry "/t/primary.xsd" docFooPrimary)
        "/t/shared.xsd" docFooShared).bundles "urn:t" = some mergedFooBundle ∧
    (generateProtoForBundle mergedFooBundle "p" "g" [] []).messages.map
        (fun m => m.name) = ["Foo"] ∧
    (generateProtoForBundle mergedFooBundle "p" "g" [] []).messages.map
        (fun m => m.fields.map (fun f => f.xmlTag)) = [["Y"]] ∧
    (["Y"] : List String) ≠ ["X"] :=
  ⟨rfl, rfl, rfl, by decide⟩

/-- Auxiliary named complex type `Foo` with field set {Y} (same-category
collision). -/
def ctFooAux : XSDComplexType :=
  .mk "Foo" (some (.mk [.mk "Y" "xs:string" "" "" none])) none none []

def sameCategoryBundle : NamespaceBundle :=
  { targetNamespace := "urn:t", elements := [],
    complexTypes := [ctFooPrimary, ctFooAux], simpleTypes := [], imports := [] }

/-- Witness for the amended C4: with both declarations in the
complex-type category and the primary's first in bundle order, the single
emitted `Foo` is the primary's. -/
theorem primary_first_ct_wins_witness :
    ((generateProtoForBundle sameCategoryBundle "p" "g" [] []).messages.filter
        (fun m => m.name = "Foo")) =
      [generateComplexTypeMessage ctFooPrimary.name ctFooPrimary []] :=
  primary_first_ct_wins sameCategoryBundle "p" "g" [] [] "Foo" ctFooPrimary
    (by intro el h; simp [sameCategoryBundle] at h)
    rfl

/-! ### C3: the per-spec emission/write loop of `convertSpec` -/

/-- The per-namespace loop of `convertSpec` (lines 1068-1091): for each
bundle, in sorted-namespace order, generate the unit content and
immediately write it to that unit's file.  `write` is the environment's
`os.WriteFile` (returning `some err` on failure); the loop aborts on the
first failed write, keeping the files already written.  (The generator
itself is embedded as a total function: every error path of
`generateComplexTypeMessage` in the source is dead, since the field
generators always return a nil error, so the only failing step of the
loop body is the write.) -/
def convertSpecEmit (write : String → ProtoUnit → Option String)
    (all : List (String × ProtoPkgInfo)) (ctx : List (String × String)) :
    List (NamespaceBundle × ProtoPkgInfo) →
    List (String × ProtoUnit) × Option String
  | [] => ([], none)
  | (b, info) :: rest =>
    let content := generateProtoForBundle b info.pkgName info.goPackage all ctx
    match write info.filePath content with
    | some e => ([], some e)
    | none =>
      let r := convertSpecEmit write all ctx rest
      ((info.filePath, content) :: r.1, r.2)

/-- C3 (amended): the files a spec's conversion has written are exactly
those of a PREFIX of its bundle list - each bundle's file is written as
soon as that bundle's content is generated, before later bundles are
processed - so an error on a later bundle leaves the earlier bundles'
files in place and only the failing and subsequent bundles unwritten. -/
theorem convertSpecEmit_writes_prefix (write : String → ProtoUnit → Option String)
    (all : List (String × ProtoPkgInfo)) (ctx : List (String × String)) :
    ∀ (specBundles : List (NamespaceBundle × ProtoPkgInfo)),
      (convertSpecEmit write all ctx specBundles).1 =
        (specBundles.take (convertSpecEmit write all ctx specBundles).1.length).map
          (fun bi => (bi.2.filePath,
            generateProtoForBundle bi.1 bi.2.pkgName bi.2.goPackage all ctx)) ∧
      (convertSpecEmit write all ctx specBundles).1.length ≤ specBundles.length := by
  intro specBundles
  induction specBundles with
  | nil => simp [convertSpecEmit]
  | cons bi rest ih =>
    obtain ⟨b, info⟩ := bi
    simp only [convertSpecEmit]
    cases hw : write info.filePath (generateProtoForBundle b info.pkgName info.goPackage all ctx) with
    | some e => simp
    | none =>
      simp only [List.length_cons, List.take_succ_cons, List.map_cons]
      refine ⟨?_, by simpa using ih.2⟩
      rw [← ih.1]

def bundleUnitA : NamespaceBundle :=
  { targetNamespace := "urn:a", elements := [],
    complexTypes := [.mk "A" none none none []], simpleTypes := [], imports := [] }

def bundleUnitB : NamespaceBundle :=
  { targetNamespace := "urn:b", elements := [],
    complexTypes := [.mk "B" none none none []], simpleTypes := [], imports := [] }

def infoUnitA : ProtoPkgInfo :=
  { pkgName := "a", goPackage := "ga", filePath := "a/a.proto" }

def infoUnitB : ProtoPkgInfo :=
  { pkgName := "b", goPackage := "gb", filePath := "b/b.proto" }

/-- A write oracle that fails on the second unit's file. -/
def failSecondWrite (path : String) (_ : ProtoUnit) : Option String :=
  if path = "b/b.proto" then some "write b/b.proto: disk full" else none

/-- C3 (refutation): when emitting a spec of two bundles the write of the
second bundle's file fails, yet the first bundle's file has already been
written - the loop generates and writes one bundle at a time, so a
mid-spec emission error does NOT leave the spec with no written output. -/
theorem emit_partial_write_counterexample :
    (convertSpecEmit failSecondWrite [] []
        [(bundleUnitA, infoUnitA), (bundleUnitB, infoUnitB)]).2 =
      some "write b/b.proto: disk full" ∧
    (convertSpecEmit failSecondWrite [] []
        [(bundleUnitA, infoUnitA), (bundleUnitB, infoUnitB)]).1.map Prod.fst =
      ["a/a.proto"] ∧
    (convertSpecEmit failSecondWrite [] []
        [(bundleUnitA, infoUnitA), (bundleUnitB, infoUnitB)]).1 ≠ [] := by
  refine ⟨rfl, rfl, ?_⟩
  intro h
  cases h
